import Mathlib

/-!
# Verification of the multi-platform article sync core

Shallow embedding of the TypeScript sources of the Wechatsync repository:
the sync-orchestrator store (`startSync` / `retryFailed` / `reset`), the
MCP control-channel client (`scheduleReconnect` / `handleMessage`), the
AWS4-style request signer's query canonicalization, the CRC-32 checksum
utility, the per-platform adapters' `checkAuth` / `uploadImageByUrl`, and
the Weixin adapter's LaTeX formula pipeline.

Conventions used throughout:
* JavaScript 32-bit integers are modelled as `Nat` values kept below
  `2 ^ 32` by the operations themselves (all operations used here --
  `>>>`, `^`, `&` -- preserve that bound, and `x >>> 0` at the end of the
  JS crc32 is the identity on the unsigned representative).
* Promise rejection is modelled with `Except String`; a function whose JS
  body is entirely wrapped in `try { ... } catch { return ... }` is total
  and is given a plain (non-`Except`) result type.
* External collaborators (the background page reached through
  `chrome.runtime.sendMessage`, the platform's HTTP endpoints, regex
  matching over fetched documents) are passed in as explicit oracle
  records, so theorems quantify over every behaviour of the environment.
-/

namespace Wechatsync

/-! ## MCP control-channel client (`McpClient`, src/unnamed/part_004)

`scheduleReconnect` (lines 142-163): exponential backoff with a pending
timer guard and a maximum attempt count.  The mutable fields
`reconnectTimer` (modelled by the Boolean `timerPending`) and
`reconnectAttempts` are the only state the function reads and writes; the
returned `Option Nat` is the delay passed to `setTimeout`, `none` when no
timer is scheduled. -/

/-- `minReconnectInterval = 1000` (1 second). -/
def minReconnectInterval : Nat := 1000

/-- `maxReconnectInterval = 30000` (30 seconds). -/
def maxReconnectInterval : Nat := 30000

/-- `maxReconnectAttempts = 100`. -/
def maxReconnectAttempts : Nat := 100

/-- The reconnect-relevant state of `McpClient`. -/
structure McpReconnectState where
  timerPending : Bool
  attempts : Nat
deriving DecidableEq, Repr

/-- `McpClient.scheduleReconnect`: returns the updated state and the delay
scheduled (in milliseconds), `none` when nothing is scheduled. -/
def scheduleReconnect (s : McpReconnectState) : McpReconnectState × Option Nat :=
  if s.timerPending then (s, none)
  else if maxReconnectAttempts ≤ s.attempts then (s, none)
  else (⟨true, s.attempts + 1⟩,
    some (min (minReconnectInterval * 2 ^ s.attempts) maxReconnectInterval))

/-- `McpClient.resetReconnect` resets the attempt counter (the subsequent
`connect()` call is outside this state). -/
def resetReconnect (s : McpReconnectState) : McpReconnectState :=
  { s with attempts := 0 }

/-! ### `McpClient.handleMessage` (src/unnamed/part_004, lines 178-219)

The method table (`handleMethod`) is modelled as an oracle
`String → Except String String`: result payloads are opaque strings and a
thrown error carries its message.  `handleMessage` itself contains no call
that closes the socket, which the `socketClosed` field makes explicit. -/

/-- An inbound control-channel request `{id, method, token, params}`
(params are consumed only by the method table and are folded into the
dispatch oracle). -/
structure McpRequest where
  id : String
  method : String
  token : Option String
deriving DecidableEq, Repr

/-- A structured `{code, message}` error. -/
structure McpError where
  code : Int
  message : String
deriving DecidableEq, Repr

/-- An outbound response `{id, result?, error?}`. -/
structure McpResponse where
  id : String
  result : Option String
  error : Option McpError
deriving DecidableEq, Repr

/-- Observable effects of handling one message. -/
structure McpHandleEffects where
  response : McpResponse
  dispatched : Bool
  socketClosed : Bool
deriving DecidableEq, Repr

/-- `McpClient.handleMessage`, for a successfully parsed message:
token check (401 when no local token, 403 on mismatch), then dispatch
through the method table with per-message error capture. -/
def handleMessage (localToken : Option String)
    (table : String → Except String String) (msg : McpRequest) :
    McpHandleEffects :=
  match localToken with
  | none =>
    { response := { id := msg.id, result := none,
                    error := some { code := 401, message := "MCP token not configured" } },
      dispatched := false, socketClosed := false }
  | some t =>
    if msg.token ≠ some t then
      { response := { id := msg.id, result := none,
                      error := some { code := 403, message := "Invalid or missing token" } },
        dispatched := false, socketClosed := false }
    else
      match table msg.method with
      | .ok v =>
        { response := { id := msg.id, result := some v, error := none },
          dispatched := true, socketClosed := false }
      | .error m =>
        { response := { id := msg.id, result := none,
                        error := some { code := -1, message := m } },
          dispatched := true, socketClosed := false }

end Wechatsync

namespace Wechatsync

/-! ## Sync orchestrator store (`useSyncStore`, src/unnamed/part_002)

The zustand store's `startSync` (lines 389-499) and `retryFailed`
(lines 501-604) are modelled as pure state transformers.  The background
page and the CMS bridge reached through `chrome.runtime.sendMessage` are
oracles (`SyncMessaging`); a rejected `sendMessage` promise is an
`Except.error`.  `chrome.storage.local` for the `syncHistory` key is the
`storedHistory` field (the model treats storage reads/writes as
non-failing; the background's own history append on a non-retry pass is
outside the sources under verification).  Analytics calls have no
observable effect on the store and are omitted.  The returned call list
records every `sendMessage` dispatch, in order. -/

/-- `SyncResult` as used by the store. -/
structure StoreSyncResult where
  platform : String
  platformName : Option String := none
  success : Bool
  postUrl : Option String := none
  draftOnly : Option Bool := none
  error : Option String := none
deriving DecidableEq, Repr

/-- Platform source kinds: DSL-defined platforms vs self-hosted CMS. -/
inductive SourceType
  | dsl
  | cms
deriving DecidableEq, Repr

/-- An entry of the store's `platforms` list (fields the sync actions
read). -/
structure StorePlatform where
  id : String
  name : String
  sourceType : SourceType
  isAuthenticated : Bool := true
deriving DecidableEq, Repr

/-- The article held by the store. -/
structure StoreArticle where
  title : String
  content : String
  summary : Option String := none
  cover : Option String := none
deriving DecidableEq, Repr

/-- Image-upload progress `{platform, current, total}`. -/
structure StoreImageProgress where
  platform : String
  current : Nat
  total : Nat
deriving DecidableEq, Repr

/-- A persisted history entry `{id, title, cover?, timestamp, results}`. -/
structure StoreHistoryItem where
  id : String
  title : String
  cover : Option String := none
  timestamp : Nat
  results : List StoreSyncResult
deriving DecidableEq, Repr

/-- The store's `status` field. -/
inductive SyncStatus
  | loading
  | idle
  | syncing
  | completed
deriving DecidableEq, Repr

/-- The store state (fields touched by `startSync`/`retryFailed`/`reset`),
plus `storedHistory` for the `syncHistory` key of `chrome.storage.local`. -/
structure SyncStoreState where
  status : SyncStatus
  article : Option StoreArticle
  platforms : List StorePlatform
  selectedPlatforms : List String
  results : List StoreSyncResult
  error : Option String
  imageProgress : Option StoreImageProgress
  history : List StoreHistoryItem
  storedHistory : List StoreHistoryItem
deriving DecidableEq, Repr

/-- Response of the `SYNC_TO_CMS` background message. -/
structure CmsSyncResponse where
  success : Bool
  postUrl : Option String := none
  draftOnly : Option Bool := none
  error : Option String := none
deriving DecidableEq, Repr

/-- Cross-boundary messaging oracles.  `syncArticle` is the batched
`SYNC_ARTICLE` dispatch to the background delegate executor (not under the
verified sources; per spec it yields one `SyncResult` per requested
platform -- theorems take that as a hypothesis); `syncToCms` is one
`SYNC_TO_CMS` round trip.  An `Except.error` is a rejected promise. -/
structure SyncMessaging where
  syncArticle : List String → Except String (List StoreSyncResult)
  syncToCms : String → Except String CmsSyncResponse

/-- A record of one `chrome.runtime.sendMessage` dispatch issued by a sync
action. -/
inductive SyncCall
  | syncArticle (platforms : List String) (skipHistory : Bool)
  | syncToCms (accountId : String)
deriving DecidableEq, Repr

/-- The platform ids a list of calls publishes to, in dispatch order. -/
def callTargets : List SyncCall → List String
  | [] => []
  | .syncArticle ids _ :: cs => ids ++ callTargets cs
  | .syncToCms id :: cs => id :: callTargets cs

/-- `platforms.find(p => p.id === id)`. -/
def findPlatform (ps : List StorePlatform) (id : String) : Option StorePlatform :=
  ps.find? fun p => p.id == id

/-- Does `id` resolve to a platform of the given source type?
(`p?.sourceType === 'dsl'` is false when the platform is not found.) -/
def hasSourceType (ps : List StorePlatform) (t : SourceType) (id : String) : Bool :=
  match findPlatform ps id with
  | some p => p.sourceType == t
  | none => false

/-- `platforms.find(p => p.id === r.platform)?.name || r.platform`
(JS `||`: an empty name also falls back to the id). -/
def resolvePlatformName (ps : List StorePlatform) (id : String) : String :=
  match findPlatform ps id with
  | some p => if p.name = "" then id else p.name
  | none => id

/-- Attach `platformName` to every result (the `map` over `allResults`
/ `retryResults`). -/
def withPlatformNames (ps : List StorePlatform) (rs : List StoreSyncResult) :
    List StoreSyncResult :=
  rs.map fun r => { r with platformName := some (resolvePlatformName ps r.platform) }

/-- The sequential CMS loop: one `SYNC_TO_CMS` message per account, a
rejected message caught and recorded as a failed result. -/
def cmsLoopResults (o : SyncMessaging) (ids : List String) : List StoreSyncResult :=
  ids.map fun accountId =>
    match o.syncToCms accountId with
    | .ok resp =>
      { platform := accountId, success := resp.success, postUrl := resp.postUrl,
        draftOnly := resp.draftOnly, error := resp.error }
    | .error e => { platform := accountId, success := false, error := some e }

/-- The selected platform ids of DSL kind (`dslPlatformIds` in
`startSync`). -/
def selectedDslIds (st : SyncStoreState) : List String :=
  st.selectedPlatforms.filter (hasSourceType st.platforms SourceType.dsl)

/-- The selected platform ids of CMS kind (`cmsPlatformIds` in
`startSync`). -/
def selectedCmsIds (st : SyncStoreState) : List String :=
  st.selectedPlatforms.filter (hasSourceType st.platforms SourceType.cms)

/-- `failedPlatformIds` in `retryFailed`: the platforms whose last result
failed. -/
def failedPlatformIds (st : SyncStoreState) : List String :=
  (st.results.filter fun r => !r.success).map (·.platform)

/-- The failed platform ids of DSL kind (`dslPlatformIds` in
`retryFailed`). -/
def retryDslIds (st : SyncStoreState) : List String :=
  (failedPlatformIds st).filter (hasSourceType st.platforms SourceType.dsl)

/-- The failed platform ids of CMS kind (`cmsPlatformIds` in
`retryFailed`). -/
def retryCmsIds (st : SyncStoreState) : List String :=
  (failedPlatformIds st).filter (hasSourceType st.platforms SourceType.cms)

/-- `startSync` (src/unnamed/part_002, lines 389-499). -/
def startSync (st : SyncStoreState) (o : SyncMessaging) :
    SyncStoreState × List SyncCall :=
  match st.article with
  | none => ({ st with error := some "未检测到文章内容" }, [])
  | some _ =>
    if st.selectedPlatforms.isEmpty then
      ({ st with error := some "请选择要同步的平台" }, [])
    else
      let st1 := { st with status := SyncStatus.syncing, results := [],
                           error := none, imageProgress := none }
      match (if (selectedDslIds st).isEmpty then Except.ok []
             else o.syncArticle (selectedDslIds st)) with
      | .error e =>
        ({ st1 with error := some e, status := SyncStatus.idle, imageProgress := none },
         if (selectedDslIds st).isEmpty then []
         else [SyncCall.syncArticle (selectedDslIds st) false])
      | .ok dslResults =>
        let allResults := dslResults ++ cmsLoopResults o (selectedCmsIds st)
        ({ st1 with status := SyncStatus.completed,
                    results := withPlatformNames st.platforms allResults,
                    history := st.storedHistory, imageProgress := none },
         (if (selectedDslIds st).isEmpty then []
          else [SyncCall.syncArticle (selectedDslIds st) false]) ++
           (selectedCmsIds st).map SyncCall.syncToCms)

/-- `retryFailed` (src/unnamed/part_002, lines 501-604).  The update of
the newest persisted history entry (lines 579-590) is the `match` on
`st.storedHistory`. -/
def retryFailed (st : SyncStoreState) (o : SyncMessaging) :
    SyncStoreState × List SyncCall :=
  match st.article with
  | none => ({ st with error := some "未检测到文章内容" }, [])
  | some _ =>
    if (failedPlatformIds st).isEmpty then (st, [])
    else
      let successResults := st.results.filter (·.success)
      let st1 := { st with status := SyncStatus.syncing, results := successResults,
                           error := none, imageProgress := none }
      match (if (retryDslIds st).isEmpty then Except.ok []
             else o.syncArticle (retryDslIds st)) with
      | .error e =>
        ({ st1 with error := some e, status := SyncStatus.completed,
                    imageProgress := none },
         if (retryDslIds st).isEmpty then []
         else [SyncCall.syncArticle (retryDslIds st) true])
      | .ok dslResults =>
        let allResults := successResults ++ withPlatformNames st.platforms
          (dslResults ++ cmsLoopResults o (retryCmsIds st))
        let st2 :=
          match st.storedHistory with
          | [] => st1
          | h :: t =>
            { st1 with storedHistory := { h with results := allResults } :: t,
                       history := { h with results := allResults } :: t }
        ({ st2 with status := SyncStatus.completed, results := allResults,
                    imageProgress := none },
         (if (retryDslIds st).isEmpty then []
          else [SyncCall.syncArticle (retryDslIds st) true]) ++
           (retryCmsIds st).map SyncCall.syncToCms)

/-- `reset` (src/unnamed/part_002, lines 606-615). -/
def resetStore (st : SyncStoreState) : SyncStoreState :=
  { st with status := SyncStatus.idle, results := [], error := none,
            imageProgress := none }

/-- **C9** -- `startSync` validation: with no loaded article, or with an
empty platform selection, the whole effect of `startSync` is to record a
validation message in `error`; the status, result list and selection are
untouched and no message is dispatched. -/
theorem startSync_validation (st : SyncStoreState) (o : SyncMessaging) :
    (st.article = none →
      startSync st o = ({ st with error := some "未检测到文章内容" }, [])) ∧
    (∀ a, st.article = some a → st.selectedPlatforms = [] →
      startSync st o = ({ st with error := some "请选择要同步的平台" }, [])) ∧
    ((st.article = none ∨ st.selectedPlatforms = []) →
      (startSync st o).1.status = st.status ∧
      (startSync st o).1.results = st.results ∧
      (startSync st o).1.selectedPlatforms = st.selectedPlatforms ∧
      (startSync st o).1.error ≠ none ∧
      (startSync st o).2 = []) := by
  have h1 : st.article = none →
      startSync st o = ({ st with error := some "未检测到文章内容" }, []) := by
    intro h; simp [startSync, h]
  have h2 : ∀ a, st.article = some a → st.selectedPlatforms = [] →
      startSync st o = ({ st with error := some "请选择要同步的平台" }, []) := by
    intro a ha hsel; simp [startSync, ha, hsel]
  refine ⟨h1, h2, ?_⟩
  rintro (h | h)
  · rw [h1 h]; exact ⟨rfl, rfl, rfl, by simp, rfl⟩
  · cases harticle : st.article with
    | none => rw [h1 harticle]; exact ⟨rfl, rfl, rfl, by simp, rfl⟩
    | some a => rw [h2 a harticle h]; exact ⟨rfl, rfl, rfl, by simp, rfl⟩

/-- Witness for `startSync_validation`: a concrete idle state with no
article and a non-empty selection. -/
theorem startSync_validation_witness :
    startSync
        { status := SyncStatus.idle, article := none, platforms := [],
          selectedPlatforms := ["p1"], results := [], error := none,
          imageProgress := none, history := [], storedHistory := [] }
        ⟨fun _ => Except.ok [], fun _ => Except.ok { success := true }⟩ =
      ({ status := SyncStatus.idle, article := none, platforms := [],
         selectedPlatforms := ["p1"], results := [], error := some "未检测到文章内容",
         imageProgress := none, history := [], storedHistory := [] }, []) :=
  (startSync_validation _ _).1 rfl

/-- A concrete completed pass used to exhibit the `retryFailed`
infrastructure-failure behaviour: one failed DSL platform, article loaded. -/
def retryCounterexState : SyncStoreState :=
  { status := SyncStatus.completed,
    article := some { title := "T", content := "<p>x</p>" },
    platforms := [{ id := "p1", name := "P1", sourceType := SourceType.dsl }],
    selectedPlatforms := ["p1"],
    results := [{ platform := "p1", success := false, error := some "publish failed" }],
    error := none, imageProgress := none,
    history := [{ id := "h1", title := "T", timestamp := 1, results := [] }],
    storedHistory := [{ id := "h1", title := "T", timestamp := 1, results := [] }] }

/-- Messaging whose batched dispatch always rejects. -/
def rejectingMessaging : SyncMessaging :=
  ⟨fun _ => Except.error "boom", fun _ => Except.error "boom"⟩

/-- **C2, counterexample** -- The claim says every path entering `syncing`
reverts to `idle` on an infrastructure failure.  On the `retryFailed` path
this is false: with the batched `SYNC_ARTICLE` dispatch rejecting
(`"boom"`), the orchestrator ends in `completed`, not `idle` (the catch at
src/unnamed/part_002 line 600 sets `status: 'completed'`). -/
theorem retryFailed_infra_failure_not_idle :
    (retryFailed retryCounterexState rejectingMessaging).1.status =
        SyncStatus.completed ∧
    (retryFailed retryCounterexState rejectingMessaging).1.status ≠
        SyncStatus.idle ∧
    (retryFailed retryCounterexState rejectingMessaging).1.error = some "boom" := by
  refine ⟨?_, ?_, ?_⟩ <;> decide

/-- **C2, amended** -- An infrastructure-level messaging failure (the
batched `SYNC_ARTICLE` dispatch rejecting) while `syncing` records the
error message and aborts the pass; on the `startSync` path the state
reverts to `idle`, while on the `retryFailed` path it reverts to
`completed` (not `idle`). -/
theorem syncing_infra_failure (st : SyncStoreState) (o : SyncMessaging)
    (e : String) (a : StoreArticle)
    (h_err : ∀ ids, o.syncArticle ids = Except.error e) :
    (st.article = some a →
      (selectedDslIds st).isEmpty = false →
      (startSync st o).1.status = SyncStatus.idle ∧
      (startSync st o).1.error = some e) ∧
    (st.article = some a →
      (retryDslIds st).isEmpty = false →
      (retryFailed st o).1.status = SyncStatus.completed ∧
      (retryFailed st o).1.error = some e) := by
  constructor
  · intro ha hdsl
    have hsel : st.selectedPlatforms.isEmpty = false := by
      cases hs : st.selectedPlatforms with
      | nil =>
        rw [selectedDslIds, hs] at hdsl; simp at hdsl
      | cons x xs => simp [hs]
    simp only [startSync, ha, hsel, hdsl, h_err]
    exact ⟨rfl, rfl⟩
  · intro ha hdsl
    have hfail : (failedPlatformIds st).isEmpty = false := by
      cases hs : failedPlatformIds st with
      | nil =>
        rw [retryDslIds, hs] at hdsl; simp at hdsl
      | cons x xs => simp [hs]
    simp only [retryFailed, ha, hfail, hdsl, h_err]
    exact ⟨rfl, rfl⟩

/-- Witness for `syncing_infra_failure` at the concrete completed pass
`retryCounterexState` (whose selection and failed results both contain the
DSL platform `"p1"`). -/
theorem syncing_infra_failure_witness :
    ((startSync retryCounterexState rejectingMessaging).1.status =
        SyncStatus.idle ∧
      (startSync retryCounterexState rejectingMessaging).1.error =
        some "boom") ∧
    ((retryFailed retryCounterexState rejectingMessaging).1.status =
        SyncStatus.completed ∧
      (retryFailed retryCounterexState rejectingMessaging).1.error =
        some "boom") := by
  have h := syncing_infra_failure retryCounterexState rejectingMessaging "boom"
    { title := "T", content := "<p>x</p>" } (fun _ => rfl)
  exact ⟨h.1 rfl (by decide), h.2 rfl (by decide)⟩

/-- Every failed platform that is known to the platform list has source
type `dsl` or `cms`, so the CMS filter is the complement of the DSL
filter. -/
theorem hasSourceType_cms_eq_not_dsl (ps : List StorePlatform) (id : String)
    (h : ∃ p ∈ ps, p.id = id) :
    hasSourceType ps SourceType.cms id = !hasSourceType ps SourceType.dsl id := by
  obtain ⟨p, hp, hpid⟩ := h
  have hsome : (findPlatform ps id).isSome := by
    rw [findPlatform, List.find?_isSome]
    exact ⟨p, hp, by simp [hpid]⟩
  obtain ⟨q, hq⟩ := Option.isSome_iff_exists.mp hsome
  cases hst : q.sourceType <;> simp [hasSourceType, hq, hst]

/-- Partitioning a list of known platform ids by source type is a
permutation of the list. -/
theorem dsl_cms_partition_perm (ps : List StorePlatform) (l : List String)
    (h : ∀ id ∈ l, ∃ p ∈ ps, p.id = id) :
    (l.filter (hasSourceType ps SourceType.dsl) ++
      l.filter (hasSourceType ps SourceType.cms)).Perm l := by
  have hcongr : l.filter (hasSourceType ps SourceType.cms) =
      l.filter (fun id => !hasSourceType ps SourceType.dsl id) :=
    List.filter_congr fun id hid => hasSourceType_cms_eq_not_dsl ps id (h id hid)
  rw [hcongr]
  exact List.filter_append_perm _ l

/-- `callTargets` distributes over append. -/
theorem callTargets_append (xs ys : List SyncCall) :
    callTargets (xs ++ ys) = callTargets xs ++ callTargets ys := by
  induction xs with
  | nil => rfl
  | cons c cs ih =>
    cases c <;> simp [callTargets, ih]

/-- The targets of a batch of `SYNC_TO_CMS` calls are the account ids. -/
theorem callTargets_map_syncToCms (ids : List String) :
    callTargets (ids.map SyncCall.syncToCms) = ids := by
  induction ids with
  | nil => rfl
  | cons id ids ih => simp [callTargets, ih]

/-- The merged result list produced by a successful retry: the prior
successes followed by the named retry results. -/
def retryMerged (st : SyncStoreState) (o : SyncMessaging)
    (rs : List StoreSyncResult) : List StoreSyncResult :=
  st.results.filter (·.success) ++
    withPlatformNames st.platforms (rs ++ cmsLoopResults o (retryCmsIds st))

/-- Unfolding of `retryFailed` on the no-infrastructure-failure path with a
non-empty persisted history. -/
theorem retryFailed_ok_eq (st : SyncStoreState) (o : SyncMessaging)
    (a : StoreArticle) (rs : List StoreSyncResult)
    (h_art : st.article = some a)
    (hne : (failedPlatformIds st).isEmpty = false)
    (hcall : (if (retryDslIds st).isEmpty then Except.ok []
        else o.syncArticle (retryDslIds st)) = Except.ok rs)
    (hd : StoreHistoryItem) (ht : List StoreHistoryItem)
    (h_hist : st.storedHistory = hd :: ht) :
    retryFailed st o =
      ({ st with status := SyncStatus.completed,
                 results := retryMerged st o rs,
                 error := none, imageProgress := none,
                 storedHistory := { hd with results := retryMerged st o rs } :: ht,
                 history := { hd with results := retryMerged st o rs } :: ht },
       (if (retryDslIds st).isEmpty then []
        else [SyncCall.syncArticle (retryDslIds st) true]) ++
         (retryCmsIds st).map SyncCall.syncToCms) := by
  cases hdsl : (retryDslIds st).isEmpty with
  | true =>
    have hd2 : retryDslIds st = [] := List.isEmpty_iff.mp hdsl
    rw [hdsl] at hcall
    simp at hcall
    subst hcall
    simp [retryFailed, h_art, hne, hd2, h_hist, retryMerged]
  | false =>
    have hd2 : ¬(retryDslIds st = []) := by
      intro h; rw [h] at hdsl; simp at hdsl
    rw [hdsl] at hcall
    simp only [Bool.false_eq_true, if_false] at hcall
    simp [retryFailed, h_art, hne, hd2, h_hist, hcall, retryMerged]

/-- **C1** -- Retry law: starting from a completed pass whose result list
has at least one failure, `retryFailed` dispatches exactly the failed
platforms (as a multiset), the final visible result list is the prior
successful results carried over verbatim followed by exactly one new
result per retried platform, the state ends `completed`, and the persisted
history keeps its length, with only its newest entry replaced in place by
the merged list (no append).  Hypotheses: the article is loaded, every
failed result's platform id is known to the platform list (spec invariant
"every `SyncResult.platform` references a known adapter id"), the
background delegate executor resolves with one result per requested
platform (spec-modelled; the executor is not part of the verified
sources), and the persisted history is non-empty. -/
theorem retryFailed_law (st : SyncStoreState) (o : SyncMessaging)
    (a : StoreArticle)
    (h_art : st.article = some a)
    (h_found : ∀ r ∈ st.results, r.success = false →
      ∃ p ∈ st.platforms, p.id = r.platform)
    (h_disp : ∀ ids, ∃ rs, o.syncArticle ids = Except.ok rs ∧
      rs.length = ids.length)
    (h_failed : st.results.filter (fun r => !r.success) ≠ [])
    (hd : StoreHistoryItem) (ht : List StoreHistoryItem)
    (h_hist : st.storedHistory = hd :: ht) :
    (callTargets (retryFailed st o).2).Perm (failedPlatformIds st) ∧
    (∃ newRs, (retryFailed st o).1.results =
        st.results.filter (·.success) ++ newRs ∧
      newRs.length = (failedPlatformIds st).length) ∧
    (retryFailed st o).1.status = SyncStatus.completed ∧
    (retryFailed st o).1.storedHistory =
      { hd with results := (retryFailed st o).1.results } :: ht ∧
    (retryFailed st o).1.storedHistory.length = st.storedHistory.length ∧
    (retryFailed st o).1.history = (retryFailed st o).1.storedHistory := by
  have hne : (failedPlatformIds st).isEmpty = false := by
    rw [failedPlatformIds]
    simpa using h_failed
  obtain ⟨rs, hcall, hlen⟩ : ∃ rs,
      (if (retryDslIds st).isEmpty then Except.ok []
        else o.syncArticle (retryDslIds st)) = Except.ok rs ∧
      rs.length = (retryDslIds st).length := by
    cases h : (retryDslIds st).isEmpty with
    | true =>
      refine ⟨[], by simp, ?_⟩
      simp [List.isEmpty_iff.mp h]
    | false =>
      obtain ⟨rs, h1, h2⟩ := h_disp (retryDslIds st)
      exact ⟨rs, by simp [h1], h2⟩
  have hmem : ∀ id ∈ failedPlatformIds st, ∃ p ∈ st.platforms, p.id = id := by
    intro id hid
    rw [failedPlatformIds, List.mem_map] at hid
    obtain ⟨r, hr, hrid⟩ := hid
    rw [List.mem_filter] at hr
    subst hrid
    exact h_found r hr.1 (by simpa using hr.2)
  have hperm : (retryDslIds st ++ retryCmsIds st).Perm (failedPlatformIds st) :=
    dsl_cms_partition_perm st.platforms (failedPlatformIds st) hmem
  rw [retryFailed_ok_eq st o a rs h_art hne hcall hd ht h_hist]
  refine ⟨?_, ?_, rfl, rfl, by simp [h_hist], rfl⟩
  · have hct : callTargets
        ((if (retryDslIds st).isEmpty then []
          else [SyncCall.syncArticle (retryDslIds st) true]) ++
          (retryCmsIds st).map SyncCall.syncToCms) =
        retryDslIds st ++ retryCmsIds st := by
      cases h : (retryDslIds st).isEmpty with
      | true =>
        rw [if_pos rfl]
        simp [callTargets_map_syncToCms, List.isEmpty_iff.mp h]
      | false =>
        rw [if_neg (by simp [h])]
        simp [callTargets_append, callTargets, callTargets_map_syncToCms]
    exact hct ▸ hperm
  · refine ⟨withPlatformNames st.platforms
      (rs ++ cmsLoopResults o (retryCmsIds st)), rfl, ?_⟩
    have h1 : (withPlatformNames st.platforms
        (rs ++ cmsLoopResults o (retryCmsIds st))).length =
        rs.length + (retryCmsIds st).length := by
      simp [withPlatformNames, cmsLoopResults]
    rw [h1, hlen, ← List.length_append]
    exact hperm.length_eq

/-- A concrete completed pass with one success (`"c1"`) and one failure
(`"d1"`), used as the retry-law witness state. -/
def retryWitnessState : SyncStoreState :=
  { status := SyncStatus.completed,
    article := some { title := "T", content := "<p>x</p>" },
    platforms := [{ id := "d1", name := "DSL One", sourceType := SourceType.dsl },
                  { id := "c1", name := "CMS One", sourceType := SourceType.cms }],
    selectedPlatforms := ["d1", "c1"],
    results := [{ platform := "c1", success := true },
                { platform := "d1", success := false, error := some "e" }],
    error := none, imageProgress := none,
    history := [{ id := "h1", title := "T", timestamp := 5, results := [] }],
    storedHistory := [{ id := "h1", title := "T", timestamp := 5, results := [] }] }

/-- Messaging that resolves with one successful result per requested
platform. -/
def okMessaging : SyncMessaging :=
  ⟨fun ids => Except.ok (ids.map fun id => { platform := id, success := true }),
   fun _ => Except.ok { success := true }⟩

/-- Witness for `retryFailed_law` at `retryWitnessState` with
`okMessaging`. -/
theorem retryFailed_law_witness :
    (callTargets (retryFailed retryWitnessState okMessaging).2).Perm
        (failedPlatformIds retryWitnessState) ∧
    (∃ newRs, (retryFailed retryWitnessState okMessaging).1.results =
        retryWitnessState.results.filter (·.success) ++ newRs ∧
      newRs.length = (failedPlatformIds retryWitnessState).length) ∧
    (retryFailed retryWitnessState okMessaging).1.status = SyncStatus.completed ∧
    (retryFailed retryWitnessState okMessaging).1.storedHistory =
      { id := "h1", title := "T", timestamp := 5,
        results := (retryFailed retryWitnessState okMessaging).1.results } :: [] ∧
    (retryFailed retryWitnessState okMessaging).1.storedHistory.length =
      retryWitnessState.storedHistory.length ∧
    (retryFailed retryWitnessState okMessaging).1.history =
      (retryFailed retryWitnessState okMessaging).1.storedHistory :=
  retryFailed_law retryWitnessState okMessaging
    { title := "T", content := "<p>x</p>" } rfl
    (by decide)
    (fun ids => ⟨ids.map fun id => { platform := id, success := true }, rfl,
      by simp⟩)
    (by decide)
    { id := "h1", title := "T", timestamp := 5, results := [] } [] rfl

/-- **C3** -- Reconnect backoff: for every attempt counter `n` below the
maximum, the scheduled delay is exactly `min (1000 * 2 ^ n) 30000`, so the
delays for `n = 0..6` are 1000, 2000, 4000, 8000, 16000, 30000, 30000; a
pending timer suppresses scheduling; once the counter reaches 100 nothing
is scheduled; and after a manual reset scheduling resumes with the base
delay. -/
theorem scheduleReconnect_backoff (s : McpReconnectState) :
    (s.timerPending = true → scheduleReconnect s = (s, none)) ∧
    (maxReconnectAttempts ≤ s.attempts → scheduleReconnect s = (s, none)) ∧
    (s.timerPending = false → s.attempts < maxReconnectAttempts →
      scheduleReconnect s =
        (⟨true, s.attempts + 1⟩, some (min (1000 * 2 ^ s.attempts) 30000))) ∧
    ((List.range 7).map
        (fun n => (scheduleReconnect ⟨false, n⟩).2) =
      [some 1000, some 2000, some 4000, some 8000, some 16000,
       some 30000, some 30000]) ∧
    (scheduleReconnect (resetReconnect ⟨false, s.attempts⟩) =
      (⟨true, 1⟩, some 1000)) := by
  refine ⟨?_, ?_, ?_, by decide, ?_⟩
  · intro h; simp [scheduleReconnect, h]
  · intro h; simp [scheduleReconnect, h]
  · intro h1 h2
    simp [scheduleReconnect, h1, Nat.not_le.mpr h2, minReconnectInterval,
      maxReconnectInterval]
  · show scheduleReconnect ⟨false, 0⟩ = (⟨true, 1⟩, some 1000)
    rfl

/-- Witness for `scheduleReconnect_backoff` at the concrete state
`{timerPending := false, attempts := 3}`. -/
theorem scheduleReconnect_backoff_witness :
    (false = true → scheduleReconnect ⟨false, 3⟩ = (⟨false, 3⟩, none)) ∧
    (maxReconnectAttempts ≤ 3 → scheduleReconnect ⟨false, 3⟩ = (⟨false, 3⟩, none)) ∧
    (false = false → 3 < maxReconnectAttempts →
      scheduleReconnect ⟨false, 3⟩ = (⟨true, 4⟩, some (min (1000 * 2 ^ 3) 30000))) ∧
    ((List.range 7).map (fun n => (scheduleReconnect ⟨false, n⟩).2) =
      [some 1000, some 2000, some 4000, some 8000, some 16000,
       some 30000, some 30000]) ∧
    (scheduleReconnect (resetReconnect ⟨false, 3⟩) = (⟨true, 1⟩, some 1000)) :=
  scheduleReconnect_backoff ⟨false, 3⟩

/-- **C4** -- Token gate: with no locally configured token every request is
answered with a 401 carrying the original id, and with a configured token a
mismatching message token yields a 403; in both cases the method table is
never consulted (`dispatched = false`, and the effects do not depend on the
table), and the socket is never closed by message handling. -/
theorem handleMessage_token_gate (msg : McpRequest)
    (table : String → Except String String) :
    (∀ localToken, (handleMessage localToken table msg).socketClosed = false) ∧
    ((handleMessage none table msg).response.id = msg.id ∧
      (handleMessage none table msg).response.error =
        some { code := 401, message := "MCP token not configured" } ∧
      (handleMessage none table msg).response.result = none ∧
      (handleMessage none table msg).dispatched = false ∧
      ∀ table2, handleMessage none table msg = handleMessage none table2 msg) ∧
    (∀ t, msg.token ≠ some t →
      (handleMessage (some t) table msg).response.id = msg.id ∧
      (handleMessage (some t) table msg).response.error =
        some { code := 403, message := "Invalid or missing token" } ∧
      (handleMessage (some t) table msg).response.result = none ∧
      (handleMessage (some t) table msg).dispatched = false ∧
      ∀ table2, handleMessage (some t) table msg = handleMessage (some t) table2 msg) := by
  refine ⟨?_, ⟨rfl, rfl, rfl, rfl, fun _ => rfl⟩, ?_⟩
  · intro localToken
    match localToken with
    | none => rfl
    | some t =>
      by_cases h : msg.token = some t
      · simp only [handleMessage, h]
        match table msg.method with
        | .ok v => simp
        | .error m => simp
      · simp only [handleMessage, if_pos h]
  · intro t h
    exact ⟨by simp only [handleMessage, if_pos h],
      by simp only [handleMessage, if_pos h],
      by simp only [handleMessage, if_pos h],
      by simp only [handleMessage, if_pos h],
      fun table2 => by simp only [handleMessage, if_pos h]⟩

/-- Witness for `handleMessage_token_gate`: the request
`{id := "7", method := "listPlatforms", token := some "bad"}` against the
local token `"secret"` (and against no local token). -/
theorem handleMessage_token_gate_witness :
    ((handleMessage (some "secret") (fun _ => Except.ok "r")
        ⟨"7", "listPlatforms", some "bad"⟩).response.error =
      some { code := 403, message := "Invalid or missing token" }) ∧
    ((handleMessage none (fun _ => Except.ok "r")
        ⟨"7", "listPlatforms", some "bad"⟩).response.error =
      some { code := 401, message := "MCP token not configured" }) := by
  have h := handleMessage_token_gate ⟨"7", "listPlatforms", some "bad"⟩
    (fun _ => Except.ok "r")
  exact ⟨(h.2.2 "secret" (by decide)).2.1, h.2.1.2.1⟩

end Wechatsync

namespace Wechatsync

/-! ## Request signer: query canonicalization (`signAWS4`,
src/unnamed/part_001, lines 577-582)

```
const queryParams = new URLSearchParams(queryString)
const sortedParams = Array.from(queryParams.entries())
  .sort((a, b) => a[0].localeCompare(b[0]))
const canonicalQueryString = sortedParams
  .map(([k, v]) => `${encodeURIComponent(k)}=${encodeURIComponent(v)}`)
  .join('&')
```

A query string is modelled by its `URLSearchParams` entry list -- the
(name, value) pairs in textual order.  `Array.prototype.sort` is stable
(ECMA-262) and the comparator looks only at the names, so the sort is
modelled by a stable insertion sort ordered by the names alone (the
particular total order on names is irrelevant to the theorems below: only
determinism and stability matter). -/

/-- `encodeURIComponent` leaves ASCII letters, digits and
`- _ . ! ~ * quote ( )` unescaped. -/
def isUriUnreserved (c : Char) : Bool :=
  (('A' ≤ c && c ≤ 'Z') || ('a' ≤ c && c ≤ 'z') || ('0' ≤ c && c ≤ '9') ||
    c == '-' || c == '_' || c == '.' || c == '!' || c == '~' || c == '*' ||
    c == Char.ofNat 39 || c == '(' || c == ')')

/-- Uppercase hexadecimal digit, as produced by `encodeURIComponent`. -/
def hexDigitUpper (n : Nat) : Char :=
  if n < 10 then Char.ofNat (48 + n) else Char.ofNat (55 + n)

/-- The UTF-8 bytes of one character. -/
def utf8Bytes (c : Char) : List Nat :=
  let n := c.toNat
  if n < 0x80 then [n]
  else if n < 0x800 then [0xC0 + n / 64, 0x80 + n % 64]
  else if n < 0x10000 then
    [0xE0 + n / 4096, 0x80 + (n / 64) % 64, 0x80 + n % 64]
  else
    [0xF0 + n / 262144, 0x80 + (n / 4096) % 64, 0x80 + (n / 64) % 64,
     0x80 + n % 64]

/-- Percent-encoding of one byte: `%XY` with uppercase hex digits. -/
def percentEncodeByte (b : Nat) : List Char :=
  ['%', hexDigitUpper (b / 16), hexDigitUpper (b % 16)]

/-- JavaScript `encodeURIComponent`. -/
def encodeURIComponent (s : String) : String :=
  ⟨s.data.foldr
    (fun c acc =>
      (if isUriUnreserved c then [c]
       else (utf8Bytes c).foldr (fun b a => percentEncodeByte b ++ a) []) ++ acc)
    []⟩

/-- The comparator of the canonical-query sort orders pairs by name
only. -/
def keyLE (p q : String × String) : Prop := p.1 ≤ q.1

/-- Strict name order, used to state uniqueness of the sorted form. -/
def keyLT (p q : String × String) : Prop := p.1 < q.1

instance : DecidableRel keyLE := fun p q =>
  inferInstanceAs (Decidable (p.1 ≤ q.1))

instance : IsTotal (String × String) keyLE := ⟨fun p q => le_total p.1 q.1⟩

instance : IsTrans (String × String) keyLE := ⟨fun _ _ _ h1 h2 => le_trans h1 h2⟩

instance : IsAntisymm (String × String) keyLT :=
  ⟨fun _ _ h1 h2 => ((lt_asymm h1) h2).elim⟩

/-- The stable sort of the entry list by parameter name (the
`sort` step with the name-only comparator). -/
def sortQueryParams (l : List (String × String)) : List (String × String) :=
  List.insertionSort keyLE l

/-- The canonical query string: sorted entries, each percent-encoded as
`name=value`, joined with `&`. -/
def canonicalQueryString (l : List (String × String)) : String :=
  String.intercalate "&"
    ((sortQueryParams l).map fun p =>
      encodeURIComponent p.1 ++ "=" ++ encodeURIComponent p.2)

/-- A `keyLE`-sorted list whose names are distinct is strictly sorted by
name. -/
theorem sorted_keyLT_of_nodup {l : List (String × String)}
    (hs : l.Sorted keyLE) (hn : (l.map Prod.fst).Nodup) : l.Sorted keyLT := by
  have h1 : l.Pairwise fun p q : String × String => p.1 ≠ q.1 :=
    List.pairwise_map.mp hn
  exact (hs.and h1).imp fun h => lt_of_le_of_ne h.1 h.2

/-- **C5, counterexample** -- For a repeated parameter name the
canonicalization is *not* order-independent: `a=1&a=2` and `a=2&a=1` hold
the same multiset of (name, value) pairs, yet their canonical query
strings differ (the stable sort keeps equal-name pairs in input order). -/
theorem canonicalQuery_duplicate_name_counterexample :
    ([("a", "1"), ("a", "2")] : List (String × String)).Perm
        [("a", "2"), ("a", "1")] ∧
    canonicalQueryString [("a", "1"), ("a", "2")] = "a=1&a=2" ∧
    canonicalQueryString [("a", "2"), ("a", "1")] = "a=2&a=1" ∧
    canonicalQueryString [("a", "1"), ("a", "2")] ≠
      canonicalQueryString [("a", "2"), ("a", "1")] := by
  have hs1 : sortQueryParams [("a", "1"), ("a", "2")] = [("a", "1"), ("a", "2")] := by
    simp [sortQueryParams, List.insertionSort, List.orderedInsert, keyLE]
  have hs2 : sortQueryParams [("a", "2"), ("a", "1")] = [("a", "2"), ("a", "1")] := by
    simp [sortQueryParams, List.insertionSort, List.orderedInsert, keyLE]
  refine ⟨by decide, ?_, ?_, ?_⟩
  · rw [canonicalQueryString, hs1]; decide
  · rw [canonicalQueryString, hs2]; decide
  · rw [canonicalQueryString, canonicalQueryString, hs1, hs2]; decide

/-- **C5, amended** -- Canonicalization is order-independent for query
strings whose parameter names are pairwise distinct: two entry lists that
are permutations of each other with no repeated name produce the same
canonical query string.  (With a repeated name, equal-name pairs keep
their relative input order, so reordering them changes the output.) -/
theorem canonicalQuery_order_independent (l1 l2 : List (String × String))
    (hperm : l1.Perm l2) (hnodup : (l1.map Prod.fst).Nodup) :
    canonicalQueryString l1 = canonicalQueryString l2 := by
  have hp1 : (sortQueryParams l1).Perm l1 := List.perm_insertionSort keyLE l1
  have hp2 : (sortQueryParams l2).Perm l2 := List.perm_insertionSort keyLE l2
  have hn1 : ((sortQueryParams l1).map Prod.fst).Nodup :=
    ((hp1.map Prod.fst).nodup_iff).mpr hnodup
  have hn2 : ((sortQueryParams l2).map Prod.fst).Nodup :=
    ((hp2.map Prod.fst).nodup_iff).mpr
      (((hperm.map Prod.fst).nodup_iff).mp hnodup)
  have hs1 : (sortQueryParams l1).Sorted keyLT :=
    sorted_keyLT_of_nodup (List.sorted_insertionSort keyLE l1) hn1
  have hs2 : (sortQueryParams l2).Sorted keyLT :=
    sorted_keyLT_of_nodup (List.sorted_insertionSort keyLE l2) hn2
  have heq : sortQueryParams l1 = sortQueryParams l2 :=
    List.eq_of_perm_of_sorted (hp1.trans (hperm.trans hp2.symm)) hs1 hs2
  rw [canonicalQueryString, canonicalQueryString, heq]

/-- Witness for `canonicalQuery_order_independent`: the entry lists of
`b=2&a=1` and `a=1&b=2`. -/
theorem canonicalQuery_order_independent_witness :
    canonicalQueryString [("b", "2"), ("a", "1")] =
      canonicalQueryString [("a", "1"), ("b", "2")] :=
  canonicalQuery_order_independent [("b", "2"), ("a", "1")]
    [("a", "1"), ("b", "2")] (by decide) (by decide)

end Wechatsync

namespace Wechatsync
/-! ## CRC-32 checksum (`crc32` / `getCRC32Table`,
src/unnamed/part_001, lines 669-695)

JS 32-bit values are modelled as `Nat` (always `< 2 ^ 32` here, so the
final `>>> 0` is the identity and signed intermediate values coincide with
their unsigned bit patterns).  The lazily built 256-entry table is, in the
pure model, the total function `crc32TableEntry`; memoizing it (the
`crc32Table` module variable) is observationally the identity, which the
equivalence below makes precise by relating the table-driven byte loop to
the direct bit-serial definition that the table caches. -/

/-- The reflected CRC-32 polynomial `0xEDB88320`. -/
def crcPoly : Nat := 0xEDB88320

/-- One iteration of the table-builder inner loop:
`c = (c & 1) ? (0xEDB88320 ^ (c >>> 1)) : (c >>> 1)`. -/
def crcStep (c : Nat) : Nat :=
  if c % 2 = 1 then crcPoly ^^^ (c >>> 1) else c >>> 1

/-- `n`-fold iteration of `crcStep`. -/
def crcStepN : Nat → Nat → Nat
  | 0, c => c
  | n + 1, c => crcStepN n (crcStep c)

/-- `getCRC32Table()[i]`: eight inner-loop iterations starting from `i`. -/
def crc32TableEntry (i : Nat) : Nat := crcStepN 8 i

/-- One iteration of the crc32 main loop:
`crc = (crc >>> 8) ^ table[(crc ^ data[i]) & 0xFF]`. -/
def crc32Update (crc b : Nat) : Nat :=
  (crc >>> 8) ^^^ crc32TableEntry ((crc ^^^ b) &&& 0xFF)

/-- The register after the main loop, starting from `0xFFFFFFFF`. -/
def crc32Acc (data : List Nat) : Nat := data.foldl crc32Update 0xFFFFFFFF

/-- Lowercase hexadecimal digit (as produced by `toString(16)`). -/
def hexDigitLower (n : Nat) : Char :=
  if n < 10 then Char.ofNat (48 + n) else Char.ofNat (87 + n)

/-- Hex digits of `n`, most significant first (`fuel ≥ n` suffices). -/
def natToHexAux : Nat → Nat → List Char
  | 0, _ => []
  | fuel + 1, n =>
    if n = 0 then [] else natToHexAux fuel (n / 16) ++ [hexDigitLower (n % 16)]

/-- JavaScript `n.toString(16)` for a non-negative integer. -/
def natToHex (n : Nat) : String := if n = 0 then "0" else ⟨natToHexAux n n⟩

/-- `padStart(8, '0')`. -/
def padStart8 (s : String) : String :=
  ⟨List.replicate (8 - s.length) '0' ++ s.data⟩

/-- `crc32(data)`: table-driven loop, final complement, lowercase 8-digit
hex rendering. -/
def crc32 (data : List Nat) : String :=
  padStart8 (natToHex ((crc32Acc data) ^^^ 0xFFFFFFFF))

/-- Modelled from the spec: one bit of the standard CRC-32/ISO-HDLC
algorithm (reflected polynomial `0xEDB88320`) -- if the LSB is set, shift
right and XOR the polynomial in, else just shift right. -/
def crcBitRef (c : Nat) : Nat :=
  if c % 2 = 1 then (c >>> 1) ^^^ 0xEDB88320 else c >>> 1

/-- Modelled from the spec: the standard bit-serial byte update -- XOR the
byte into the register, then run eight bit iterations. -/
def crcRefUpdate (crc b : Nat) : Nat :=
  crcBitRef (crcBitRef (crcBitRef (crcBitRef
    (crcBitRef (crcBitRef (crcBitRef (crcBitRef (crc ^^^ b))))))))

/-- Modelled from the spec: the reference CRC-32/ISO-HDLC checksum
(initial value `0xFFFFFFFF`, final XOR `0xFFFFFFFF`), rendered as an
8-digit lowercase hex string. -/
def crc32_ref (data : List Nat) : String :=
  padStart8 (natToHex ((data.foldl crcRefUpdate 0xFFFFFFFF) ^^^ 0xFFFFFFFF))

/-- The reference bit step coincides with the table-builder step. -/
theorem crcBitRef_eq_crcStep (c : Nat) : crcBitRef c = crcStep c := by
  rw [crcBitRef, crcStep]
  by_cases h : c % 2 = 1
  · rw [if_pos h, if_pos h, Nat.xor_comm]
    rfl
  · rw [if_neg h, if_neg h]

/-- Shifting right distributes over XOR. -/
theorem shiftRight_xor (a b k : Nat) :
    (a ^^^ b) >>> k = (a >>> k) ^^^ (b >>> k) := by
  apply Nat.eq_of_testBit_eq
  intro i
  simp

/-- XOR of a common left operand cancels. -/
theorem xor_cancel_left (p x y : Nat) :
    (p ^^^ x) ^^^ (p ^^^ y) = x ^^^ y := by
  apply Nat.eq_of_testBit_eq
  intro i
  simp only [Nat.testBit_xor]
  generalize p.testBit i = bp
  generalize x.testBit i = bx
  generalize y.testBit i = c
  revert bp bx c
  decide

/-- The table-builder step is linear over XOR (the conditional XOR of the
polynomial is controlled by the parity bit, and parity is additive). -/
theorem crcStep_xor (a b : Nat) :
    crcStep (a ^^^ b) = crcStep a ^^^ crcStep b := by
  have hx : (a ^^^ b) >>> 1 = (a >>> 1) ^^^ (b >>> 1) :=
    shiftRight_xor a b 1
  rcases Nat.mod_two_eq_zero_or_one a with ha | ha <;>
    rcases Nat.mod_two_eq_zero_or_one b with hb | hb
  · have hab : (a ^^^ b) % 2 = 0 := by
      have h2 : ¬ ((a ^^^ b) % 2 = 1) := by
        rw [Nat.xor_mod_two_eq_one]
        simp [ha, hb]
      omega
    simp [crcStep, ha, hb, hab, hx]
  · have hab : (a ^^^ b) % 2 = 1 := by
      rw [Nat.xor_mod_two_eq_one]
      simp [ha, hb]
    simp [crcStep, ha, hb, hab, hx]
    ac_rfl
  · have hab : (a ^^^ b) % 2 = 1 := by
      rw [Nat.xor_mod_two_eq_one]
      simp [ha, hb]
    simp [crcStep, ha, hb, hab, hx]
    ac_rfl
  · have hab : (a ^^^ b) % 2 = 0 := by
      have h2 : ¬ ((a ^^^ b) % 2 = 1) := by
        rw [Nat.xor_mod_two_eq_one]
        simp [ha, hb]
      omega
    simp [crcStep, ha, hb, hab, hx]
    exact (xor_cancel_left crcPoly (a >>> 1) (b >>> 1)).symm

/-- Iterated steps are linear over XOR. -/
theorem crcStepN_xor (n a b : Nat) :
    crcStepN n (a ^^^ b) = crcStepN n a ^^^ crcStepN n b := by
  induction n generalizing a b with
  | zero => rfl
  | succ n ih => rw [crcStepN, crcStepN, crcStepN, crcStep_xor, ih]

/-- A step on an even value is a plain shift. -/
theorem crcStep_double (y : Nat) : crcStep (2 * y) = y := by
  have h1 : (2 * y) % 2 = 0 := Nat.mul_mod_right 2 y
  have h2 : ¬ ((2 * y) % 2 = 1) := by omega
  have h3 : (2 * y) >>> 1 = 2 * y / 2 := by
    rw [Nat.shiftRight_succ, Nat.shiftRight_zero]
  rw [crcStep, if_neg h2, h3]
  omega

/-- Eight steps on a value with eight low zero bits undo the shift. -/
theorem crcStepN_mul_pow (n y : Nat) : crcStepN n (y * 2 ^ n) = y := by
  induction n generalizing y with
  | zero => simp [crcStepN]
  | succ n ih =>
    have h : y * 2 ^ (n + 1) = 2 * (y * 2 ^ n) := by ring
    rw [crcStepN, h, crcStep_double, ih]

/-- Every natural splits as its low byte XOR its high part. -/
theorem low_byte_decomp (x : Nat) : x = (x &&& 255) ^^^ ((x >>> 8) <<< 8) := by
  apply Nat.eq_of_testBit_eq
  intro i
  have h255 : (255 : Nat) = 2 ^ 8 - 1 := by norm_num
  rw [h255]
  simp only [Nat.testBit_xor, Nat.testBit_and, Nat.testBit_two_pow_sub_one,
    Nat.testBit_shiftLeft, Nat.testBit_shiftRight]
  rcases Nat.lt_or_ge i 8 with h | h
  · simp [h, Nat.not_le.mpr h]
  · have h8 : 8 + (i - 8) = i := by omega
    simp [h, Nat.not_lt.mpr h, h8]

/-- The split behind the lookup table: eight bit steps equal a byte shift
XOR the table entry of the low byte. -/
theorem crcStepN8_decomp (x : Nat) :
    crcStepN 8 x = (x >>> 8) ^^^ crc32TableEntry (x &&& 255) := by
  conv_lhs => rw [low_byte_decomp x]
  rw [crcStepN_xor, Nat.shiftLeft_eq, crcStepN_mul_pow, crc32TableEntry,
    Nat.xor_comm]

/-- XORing a byte-sized value does not disturb bits 8 and above. -/
theorem xor_byte_shiftRight (x b : Nat) (hb : b < 256) :
    (x ^^^ b) >>> 8 = x >>> 8 := by
  apply Nat.eq_of_testBit_eq
  intro i
  have hbit : b.testBit (8 + i) = false := by
    apply Nat.testBit_lt_two_pow
    calc b < 256 := hb
    _ = 2 ^ 8 := by norm_num
    _ ≤ 2 ^ (8 + i) := Nat.pow_le_pow_right (by omega) (by omega)
  simp [hbit]

/-- The table-driven byte update equals eight direct bit steps. -/
theorem crc32Update_eq_stepN (crc b : Nat) (hb : b < 256) :
    crc32Update crc b = crcStepN 8 (crc ^^^ b) := by
  rw [crc32Update, crcStepN8_decomp (crc ^^^ b), xor_byte_shiftRight crc b hb]

/-- The reference byte update is eight iterated steps. -/
theorem crcRefUpdate_eq_stepN (crc b : Nat) :
    crcRefUpdate crc b = crcStepN 8 (crc ^^^ b) := by
  simp only [crcRefUpdate, crcBitRef_eq_crcStep]
  rfl

/-- The two byte loops agree on byte-valued input streams. -/
theorem foldl_crc32Update_eq (data : List Nat) :
    ∀ crc, (∀ b ∈ data, b < 256) →
      data.foldl crc32Update crc = data.foldl crcRefUpdate crc := by
  induction data with
  | nil => intro crc _; rfl
  | cons b bs ih =>
    intro crc h
    rw [List.foldl_cons, List.foldl_cons,
      crc32Update_eq_stepN crc b (h b (List.mem_cons_self b bs)),
      ← crcRefUpdate_eq_stepN]
    exact ih _ fun x hx => h x (List.mem_cons_of_mem b hx)

/-- **C6** -- The checksum utility computes the standard CRC-32/ISO-HDLC
value: on every byte sequence the table-driven `crc32` agrees with the
reference bit-serial definition (reflected polynomial `0xEDB88320`,
initial value `0xFFFFFFFF`, final XOR `0xFFFFFFFF`, 8-digit lowercase hex
rendering), and on the ASCII bytes of `"123456789"` it returns the
reference check value `"cbf43926"`.  (The lazily-memoized lookup table is
observationally the pure function `crc32TableEntry`; building it once
versus per call is invisible in the result, which is what the agreement of
the table-driven loop with the table-free reference expresses.) -/
theorem crc32_spec :
    (∀ data : List Nat, (∀ b ∈ data, b < 256) → crc32 data = crc32_ref data) ∧
    crc32 ("123456789".data.map Char.toNat) = "cbf43926" := by
  constructor
  · intro data h
    rw [crc32, crc32_ref, crc32Acc, foldl_crc32Update_eq data 0xFFFFFFFF h]
  · decide

/-- Witness for `crc32_spec`: the agreement instantiated at the concrete
byte list `[49, 50, 51]` (ASCII `"123"`), together with the check value. -/
theorem crc32_spec_witness :
    crc32 [49, 50, 51] = crc32_ref [49, 50, 51] ∧
    crc32 ("123456789".data.map Char.toNat) = "cbf43926" :=
  ⟨crc32_spec.1 [49, 50, 51] (by decide), crc32_spec.2⟩

end Wechatsync

namespace Wechatsync

/-! ## Adapter `checkAuth` (C7) and Juejin `uploadImageByUrl` (C10)

Each adapter's network capability is an oracle record: an `Except.error`
is a rejected promise (covering a rejected `fetch` as well as a body
`.text()` / `.json()` that fails to parse, which are indistinguishable to
the caller).  Regex matching over the fetched document (Weixin) is a pure
total JS operation and is abstracted as `String → Option String` matcher
functions, quantified over in the theorems.

The whole bodies of `WeixinAdapter.checkAuth` (src/unnamed/part_000,
lines 202-261) and `JuejinAdapter.checkAuth`
(src/packages/extension/src/adapters/juejin.ts, lines 21-50) are wrapped
in `try { ... } catch { return {isAuthenticated: false, error} }`, so
their models are total functions into `AuthResult`.
`ImoocAdapter.checkAuth`
(src/packages/core/src/adapters/platforms/imooc.ts, lines 49-78) calls
`removeHeaderRules()` inside its `catch`, and that call can itself reject,
so its model returns `Except String AuthResult`. -/

/-- `String.prototype.startsWith`, via the character list (the core
`String.startsWith` is not kernel-reducible). -/
def strStartsWith (s pre : String) : Bool := pre.data.isPrefixOf s.data

/-- `AuthResult`. -/
structure AuthResult where
  isAuthenticated : Bool
  userId : Option String := none
  username : Option String := none
  avatar : Option String := none
  error : Option String := none
deriving DecidableEq, Repr

/-- The regex extractions of `WeixinAdapter.checkAuth`, as abstract
matcher functions over the fetched page. -/
structure WeixinMatchers where
  matchToken : String → Option String
  matchTicket : String → Option String
  matchUserName : String → Option String
  matchNickName : String → Option String
  matchTime : String → Option String
  matchHeadImg : String → Option String
  matchAvatarThumb : String → Option String

/-- `WeixinAdapter.checkAuth`: fetch the dashboard page, require the
token marker, extract identity fields, upgrade an `http://` avatar to
`https://`. -/
def weixinCheckAuth (m : WeixinMatchers) (fetchHtml : Except String String) :
    AuthResult :=
  match fetchHtml with
  | .error e => { isAuthenticated := false, error := some e }
  | .ok html =>
    match m.matchToken html with
    | none => { isAuthenticated := false }
    | some _ =>
      let userName := (m.matchUserName html).getD ""
      let nickName := (m.matchNickName html).getD ""
      let avatar0 :=
        match m.matchAvatarThumb html with
        | some a => a
        | none => (m.matchHeadImg html).getD ""
      let avatar :=
        if strStartsWith avatar0 "http://" then "https://" ++ avatar0.drop 7
        else avatar0
      { isAuthenticated := true, userId := some userName,
        username := some nickName, avatar := some avatar }

/-- The `data.data` object of the Juejin user endpoint. -/
structure JuejinUser where
  user_id : Option String := none
  user_name : Option String := none
  avatar_large : Option String := none
deriving DecidableEq, Repr

/-- JS truthiness of an optional string (`undefined` and `""` are
falsy). -/
def jsTruthyStr : Option String → Bool
  | none => false
  | some s => !(s == "")

/-- `JuejinAdapter.checkAuth`: authenticated exactly when
`data.data?.user_id` is truthy. -/
def juejinCheckAuth (fetchUser : Except String (Option JuejinUser)) :
    AuthResult :=
  match fetchUser with
  | .error e => { isAuthenticated := false, error := some e }
  | .ok d =>
    match d with
    | some u =>
      if jsTruthyStr u.user_id then
        { isAuthenticated := true, userId := u.user_id,
          username := u.user_name, avatar := u.avatar_large }
      else { isAuthenticated := false }
    | none => { isAuthenticated := false }

/-- The header-override capability (`runtime.headerRules`). -/
structure HeaderRulesCap where
  add : Except String String
  remove : String → Except String Unit

/-- The `data` object of the Imooc user-card endpoint. -/
structure ImoocUserData where
  uid : Option String := none
  nickname : Option String := none
  img : Option String := none
deriving DecidableEq, Repr

/-- The parsed Imooc user-card JSONP payload. -/
structure ImoocCard where
  result : Int
  msg : Option String := none
  userData : Option ImoocUserData := none
deriving DecidableEq, Repr

/-- The Imooc adapter's injected capability: optional header-rule
mechanism, the card fetch (`fetch` + `.text()`), and `JSON.parse`. -/
structure ImoocRuntime where
  headerRules : Option HeaderRulesCap
  fetchText : Except String String
  parseJson : String → Except String ImoocCard

/-- Replace the first occurrence of `pat` (JS `String.prototype.replace`
with a string pattern). -/
def replaceFirstAux (pat repl : List Char) : List Char → List Char
  | [] => []
  | c :: rest =>
    if pat.isPrefixOf (c :: rest) then repl ++ (c :: rest).drop pat.length
    else c :: replaceFirstAux pat repl rest

/-- `s.replace(pat, repl)` for plain string patterns. -/
def replaceFirst (s pat repl : String) : String :=
  ⟨replaceFirstAux pat.data repl.data s.data⟩

/-- The JSONP munging:
`text.replace('jsonpcallback(', '').replace('})', '}')`. -/
def jsonpStrip (text : String) : String :=
  replaceFirst (replaceFirst text "jsonpcallback(" "") "\x7d)" "\x7d"

/-- `removeHeaderRules()`: no-op without the capability or without a
stored rule id; on success the stored id is cleared, and a rejection
propagates with the id still set (the clearing assignment follows the
`await`). -/
def removeRules (cap : Option HeaderRulesCap) (ruleId : Option String) :
    Except String (Option String) :=
  match cap with
  | none => .ok ruleId
  | some c =>
    match ruleId with
    | none => .ok none
    | some rid =>
      match c.remove rid with
      | .ok _ => .ok none
      | .error e => .error e

/-- The `catch` block of `ImoocAdapter.checkAuth`: remove the header
rules (a rejection here escapes the `catch` and rejects `checkAuth`),
then resolve `{isAuthenticated: false, error}`. -/
def imoocCatch (cap : Option HeaderRulesCap) (ruleId : Option String)
    (e : String) : Except String AuthResult :=
  match removeRules cap ruleId with
  | .error e2 => .error e2
  | .ok _ => .ok { isAuthenticated := false, error := some e }

/-- The `try` block of `ImoocAdapter.checkAuth` after `addHeaderRules`,
with `ruleId` the stored rule id. -/
def imoocBody (rt : ImoocRuntime) (ruleId : Option String) :
    Except String AuthResult :=
  match rt.fetchText with
  | .error e => imoocCatch rt.headerRules ruleId e
  | .ok text =>
    match rt.parseJson (jsonpStrip text) with
    | .error e => imoocCatch rt.headerRules ruleId e
    | .ok card =>
      match removeRules rt.headerRules ruleId with
      | .error e => imoocCatch rt.headerRules ruleId e
      | .ok ruleId2 =>
        if card.result ≠ 0 then
          .ok { isAuthenticated := false,
                error := some (match card.msg with
                  | some s => if s == "" then "未登录" else s
                  | none => "未登录") }
        else
          match card.userData with
          | some d =>
            .ok { isAuthenticated := true, userId := d.uid,
                  username := d.nickname, avatar := d.img }
          | none =>
            imoocCatch rt.headerRules ruleId2
              "TypeError: cannot read uid of undefined"

/-- `ImoocAdapter.checkAuth`. -/
def imoocCheckAuth (rt : ImoocRuntime) : Except String AuthResult :=
  match rt.headerRules with
  | none => imoocBody rt none
  | some c =>
    match c.add with
    | .ok rid => imoocBody rt (some rid)
    | .error e => imoocCatch rt.headerRules none e

/-- A capability whose header-rule removal rejects, paired with a
rejecting fetch. -/
def imoocRejectingRuntime : ImoocRuntime :=
  { headerRules := some { add := Except.ok "r1",
                          remove := fun _ => Except.error "remove failed" },
    fetchText := Except.error "network error",
    parseJson := fun _ => Except.error "unused" }

/-- **C7, counterexample** -- `checkAuth` does not always resolve: for the
Imooc adapter, when the fetch rejects and the header-rule removal in the
`catch` block also rejects, `checkAuth` itself rejects instead of
resolving to an `AuthResult`. -/
theorem imoocCheckAuth_can_reject :
    imoocCheckAuth imoocRejectingRuntime = Except.error "remove failed" := rfl

/-- **C7, amended** -- `checkAuth` always resolves to a well-formed
`AuthResult` for the Weixin and Juejin adapters (their entire bodies sit
inside `try/catch`, so the model is a total function into `AuthResult`,
and a rejected fetch/parse yields `{isAuthenticated: false, error}`).
For the Imooc adapter the same holds *provided* the header-rule removal
capability never rejects (and, for the fetch-failure shape, that adding
the header rule succeeded); without that proviso Imooc's `checkAuth` can
itself reject (see the counterexample). -/
theorem checkAuth_wellformed :
    (∀ (m : WeixinMatchers) (e : String),
      weixinCheckAuth m (Except.error e) =
        { isAuthenticated := false, error := some e }) ∧
    (∀ e : String, juejinCheckAuth (Except.error e) =
        { isAuthenticated := false, error := some e }) ∧
    (∀ rt : ImoocRuntime,
      (∀ c, rt.headerRules = some c → ∀ rid, c.remove rid = Except.ok ()) →
      (∃ a, imoocCheckAuth rt = Except.ok a) ∧
      (∀ e, rt.fetchText = Except.error e →
        (∀ c, rt.headerRules = some c → ∃ rid, c.add = Except.ok rid) →
        imoocCheckAuth rt =
          Except.ok { isAuthenticated := false, error := some e })) := by
  refine ⟨fun m e => rfl, fun e => rfl, ?_⟩
  intro rt hrem
  have hremove : ∀ rid, ∃ r, removeRules rt.headerRules rid = Except.ok r := by
    intro rid
    cases hh : rt.headerRules with
    | none => exact ⟨rid, by rw [removeRules]⟩
    | some c =>
      cases rid with
      | none => exact ⟨none, by rw [removeRules]⟩
      | some r => exact ⟨none, by rw [removeRules, hrem c hh r]⟩
  have hcatch : ∀ rid e, imoocCatch rt.headerRules rid e =
      Except.ok { isAuthenticated := false, error := some e } := by
    intro rid e
    obtain ⟨r, hr⟩ := hremove rid
    rw [imoocCatch, hr]
  have hbody : ∀ rid, ∃ a, imoocBody rt rid = Except.ok a := by
    intro rid
    rw [imoocBody]
    cases hf : rt.fetchText with
    | error e =>
      exact ⟨_, hcatch rid e⟩
    | ok text =>
      dsimp only
      cases hp : rt.parseJson (jsonpStrip text) with
      | error e =>
        exact ⟨_, hcatch rid e⟩
      | ok card =>
        dsimp only
        obtain ⟨r, hr⟩ := hremove rid
        rw [hr]
        dsimp only
        by_cases hres : card.result ≠ 0
        · rw [if_pos hres]
          exact ⟨_, rfl⟩
        · rw [if_neg hres]
          cases hd : card.userData with
          | some d => exact ⟨_, rfl⟩
          | none => exact ⟨_, hcatch r _⟩
  constructor
  · rw [imoocCheckAuth]
    cases hh : rt.headerRules with
    | none => exact hbody none
    | some c =>
      dsimp only
      cases ha : c.add with
      | ok rid => exact hbody (some rid)
      | error e =>
        dsimp only
        rw [← hh]
        exact ⟨_, hcatch none e⟩
  · intro e hf hadd
    rw [imoocCheckAuth]
    cases hh : rt.headerRules with
    | none =>
      rw [imoocBody, hf]
      exact hcatch none e
    | some c =>
      obtain ⟨rid, hrid⟩ := hadd c hh
      dsimp only
      rw [hrid]
      dsimp only
      rw [imoocBody, hf]
      exact hcatch (some rid) e

/-- Matchers that find nothing on the fetched page. -/
def emptyMatchers : WeixinMatchers :=
  ⟨fun _ => none, fun _ => none, fun _ => none, fun _ => none,
   fun _ => none, fun _ => none, fun _ => none⟩

/-- An Imooc capability with no header-rule mechanism and a rejecting
fetch. -/
def imoocPlainRejecting : ImoocRuntime :=
  { headerRules := none, fetchText := Except.error "net down",
    parseJson := fun _ => Except.error "unused" }

/-- Witness for `checkAuth_wellformed` at concrete rejecting fetches. -/
theorem checkAuth_wellformed_witness :
    weixinCheckAuth emptyMatchers (Except.error "net down") =
      { isAuthenticated := false, error := some "net down" } ∧
    juejinCheckAuth (Except.error "net down") =
      { isAuthenticated := false, error := some "net down" } ∧
    imoocCheckAuth imoocPlainRejecting =
      Except.ok { isAuthenticated := false, error := some "net down" } := by
  refine ⟨checkAuth_wellformed.1 emptyMatchers "net down",
    checkAuth_wellformed.2.1 "net down", ?_⟩
  exact (checkAuth_wellformed.2.2 imoocPlainRejecting
      (fun c hc => by simp [imoocPlainRejecting] at hc)).2
    "net down" rfl (fun c hc => by simp [imoocPlainRejecting] at hc)

/-! ### Juejin `uploadImageByUrl`
(src/packages/extension/src/adapters/juejin.ts, lines 197-242)

The whole body -- *including* the data-URI branch that downloads the blob
and calls `uploadImageBinaryInternal` -- sits inside
`try { ... } catch { return {url: src} }`, so the function always
resolves; the model is therefore a total function into
`ImageUploadResult`. -/

/-- The adapter-contract upload result `{url}`. -/
structure ImageUploadResult where
  url : String
deriving DecidableEq, Repr

/-- The parsed response of `https://juejin.cn/image/urlSave`. -/
structure UrlSaveResponse where
  hosted : Option String := none
  message : Option String := none
  err_msg : Option String := none
  err_no : Option Int := none
deriving DecidableEq, Repr

/-- The network behaviour seen by one `uploadImageByUrl` call:
`fetch(src).blob()` for a data URI, the binary upload
(`uploadImageBinaryInternal`, including its CSRF fetch), and the
URL-save endpoint (`runtime.fetch` + `.json()`). -/
structure JuejinUploadEnv where
  fetchDataUri : Except String Unit
  binaryUpload : Except String String
  urlSave : Except String UrlSaveResponse

/-- JS truthiness of an optional number (`undefined` and `0` are
falsy); `data.err_no && data.err_no !== 0` collapses to this. -/
def jsTruthyInt : Option Int → Bool
  | none => false
  | some n => !(n == 0)

/-- `JuejinAdapter.uploadImageByUrl`. -/
def juejinUploadImageByUrl (env : JuejinUploadEnv) (src : String) :
    ImageUploadResult :=
  if strStartsWith src "data:" then
    match env.fetchDataUri with
    | .error _ => ⟨src⟩
    | .ok _ =>
      match env.binaryUpload with
      | .ok url => ⟨url⟩
      | .error _ => ⟨src⟩
  else
    match env.urlSave with
    | .error _ => ⟨src⟩
    | .ok resp =>
      if jsTruthyInt resp.err_no then ⟨src⟩
      else
        match resp.hosted with
        | some d => if d == "" then ⟨src⟩ else ⟨d⟩
        | none => ⟨src⟩

/-- An environment whose binary upload rejects. -/
def failingBinaryEnv : JuejinUploadEnv :=
  { fetchDataUri := Except.ok (), binaryUpload := Except.error "upload failed",
    urlSave := Except.error "unused" }

/-- **C10, counterexample** -- The claim allows the data-URI path to
reject, but the `catch` encloses that path too: with the binary upload
rejecting, `uploadImageByUrl` on a data URI still resolves, with the
original source returned unchanged. -/
theorem juejinUpload_dataUri_never_rejects :
    juejinUploadImageByUrl failingBinaryEnv "data:image/png;base64,AAA" =
      ⟨"data:image/png;base64,AAA"⟩ := rfl

/-- **C10, amended** -- `uploadImageByUrl` always resolves, for *every*
source string including data URIs (the model's totality mirrors the
all-enclosing `try/catch`).  For a non-data-URI source, a rejected
URL-save call, a non-zero business error code, or a missing/empty `data`
field each yield the original source unchanged, and a successful save
yields the returned URL; for a data-URI source, a rejected download or a
rejected binary upload likewise yield the original source unchanged. -/
theorem juejinUpload_degrade (env : JuejinUploadEnv) (src : String)
    (hnd : strStartsWith src "data:" = false) :
    (∀ e, env.urlSave = Except.error e →
      juejinUploadImageByUrl env src = ⟨src⟩) ∧
    (∀ resp n, env.urlSave = Except.ok resp → resp.err_no = some n → n ≠ 0 →
      juejinUploadImageByUrl env src = ⟨src⟩) ∧
    (∀ resp, env.urlSave = Except.ok resp → jsTruthyInt resp.err_no = false →
      (resp.hosted = none ∨ resp.hosted = some "") →
      juejinUploadImageByUrl env src = ⟨src⟩) ∧
    (∀ resp d, env.urlSave = Except.ok resp → jsTruthyInt resp.err_no = false →
      resp.hosted = some d → d ≠ "" →
      juejinUploadImageByUrl env src = ⟨d⟩) ∧
    (∀ (env2 : JuejinUploadEnv) (src2 e2 : String),
      strStartsWith src2 "data:" = true →
      (env2.fetchDataUri = Except.error e2 ∨
        (env2.fetchDataUri = Except.ok () ∧
          env2.binaryUpload = Except.error e2)) →
      juejinUploadImageByUrl env2 src2 = ⟨src2⟩) := by
  refine ⟨?_, ?_, ?_, ?_, ?_⟩
  · intro e he
    simp [juejinUploadImageByUrl, hnd, he]
  · intro resp n hresp hn hne
    have ht : jsTruthyInt resp.err_no = true := by
      rw [hn, jsTruthyInt]
      simpa using hne
    simp [juejinUploadImageByUrl, hnd, hresp, ht]
  · intro resp hresp ht hd
    rcases hd with hd | hd <;> simp [juejinUploadImageByUrl, hnd, hresp, ht, hd]
  · intro resp d hresp ht hd hne
    simp [juejinUploadImageByUrl, hnd, hresp, ht, hd, hne]
  · intro env2 src2 e2 hd2 hcase
    rcases hcase with h | ⟨h1, h2⟩
    · simp [juejinUploadImageByUrl, hd2, h]
    · simp [juejinUploadImageByUrl, hd2, h1, h2]

/-- Witness for `juejinUpload_degrade`: the non-data source
`"https://x/img.png"` with a URL-save endpoint that reports business
error 1, plus the failing data-URI environment. -/
theorem juejinUpload_degrade_witness :
    juejinUploadImageByUrl
        { fetchDataUri := Except.ok (), binaryUpload := Except.ok "u",
          urlSave := Except.ok { err_no := some 1, err_msg := some "bad" } }
        "https://x/img.png" = ⟨"https://x/img.png"⟩ ∧
    juejinUploadImageByUrl failingBinaryEnv "data:image/png;base64,BBB" =
      ⟨"data:image/png;base64,BBB"⟩ := by
  have h := juejinUpload_degrade
    { fetchDataUri := Except.ok (), binaryUpload := Except.ok "u",
      urlSave := Except.ok { err_no := some 1, err_msg := some "bad" } }
    "https://x/img.png" (by decide)
  exact ⟨h.2.1 { err_no := some 1, err_msg := some "bad" } 1 rfl rfl (by decide),
    h.2.2.2.2 failingBinaryEnv "data:image/png;base64,BBB" "upload failed"
      (by decide) (Or.inr ⟨rfl, by rw [failingBinaryEnv]⟩)⟩

end Wechatsync

namespace Wechatsync

/-! ## Weixin LaTeX formula pipeline (C8)

`WeixinAdapter.isLatexFormula` / `processLatex` (src/unnamed/part_000,
lines 471-504) and the ordering of `publish` (lines 286-298), where step 4
(`processLatex`) runs before step 5 (`processImages`).

The regex replacements `/\$\$([^$]+)\$\$/g` and `/\$([^$]+)\$/g` are
implemented as fuel-indexed scanners over the character list (the fuel is
the list length, which bounds the number of scan positions); `[^$]+` is
greedy and cannot backtrack usefully here, so the maximal `$`-free run
followed by the closing delimiters is exactly the JS match. -/

/-- The first classifier test, `/[\\^_{}]/` (LaTeX command characters;
`0x7b`/`0x7d` are the braces). -/
def isLatexCommandChar (c : Char) : Bool :=
  c == '\\' || c == '^' || c == '_' || c == Char.ofNat 0x7b || c == Char.ofNat 0x7d

/-- The second classifier test, `/[α-ωΑ-Ω]/` (Greek letters,
`U+03B1..U+03C9` and `U+0391..U+03A9`). -/
def isGreekChar (c : Char) : Bool :=
  (0x391 ≤ c.toNat && c.toNat ≤ 0x3A9) || (0x3B1 ≤ c.toNat && c.toNat ≤ 0x3C9)

/-- The third classifier test, `/[∑∏∫∂∇∞≠≤≥±×÷√]/` (mathematical operator
glyphs, by code point). -/
def isMathOpChar (c : Char) : Bool :=
  c.toNat == 0x2211 || c.toNat == 0x220F || c.toNat == 0x222B ||
  c.toNat == 0x2202 || c.toNat == 0x2207 || c.toNat == 0x221E ||
  c.toNat == 0x2260 || c.toNat == 0x2264 || c.toNat == 0x2265 ||
  c.toNat == 0xB1 || c.toNat == 0xD7 || c.toNat == 0xF7 || c.toNat == 0x221A

/-- `WeixinAdapter.isLatexFormula`: the three regex tests in
disjunction. -/
def isLatexFormula (s : String) : Bool :=
  s.data.any isLatexCommandChar || s.data.any isGreekChar ||
    s.data.any isMathOpChar

/-- JS `String.prototype.trim` whitespace (the characters relevant to
markup content). -/
def isJsWhitespace (c : Char) : Bool :=
  c == ' ' || c == '\t' || c == '\n' || c == '\r' ||
  c == Char.ofNat 0xB || c == Char.ofNat 0xC || c == Char.ofNat 0xA0

/-- `s.trim()`. -/
def trimChars (s : String) : String :=
  ⟨((s.data.dropWhile isJsWhitespace).reverse.dropWhile isJsWhitespace).reverse⟩

/-- The formula-rendering endpoint (`LATEX_API`). -/
def LATEX_API : String := "https://latex.codecogs.com/png.latex"

/-- The `<img>` a *block* formula is rewritten to (centered paragraph,
dpi 150). -/
def blockFormulaImg (latex : String) : String :=
  "<p style=\"text-align: center;\"><img src=\"" ++ LATEX_API ++
    "?\\dpi{150}" ++ encodeURIComponent (trimChars latex) ++
    "\" alt=\"formula\" style=\"vertical-align: middle; max-width: 100%;\"></p>"

/-- The `<img>` an *inline* formula is rewritten to (dpi 120). -/
def inlineFormulaImg (latex : String) : String :=
  "<img src=\"" ++ LATEX_API ++ "?\\dpi{120}" ++
    encodeURIComponent (trimChars latex) ++
    "\" alt=\"formula\" style=\"vertical-align: middle;\">"

/-- The block replacer callback: a span that the classifier rejects is
kept verbatim. -/
def blockReplacement (latex : String) : String :=
  if isLatexFormula latex then blockFormulaImg latex
  else "$$" ++ latex ++ "$$"

/-- The inline replacer callback. -/
def inlineReplacement (latex : String) : String :=
  if isLatexFormula latex then inlineFormulaImg latex
  else "$" ++ latex ++ "$"

/-- Global replacement of `/\$\$([^$]+)\$\$/`. -/
def replaceBlockAux : Nat → List Char → List Char
  | 0, cs => cs
  | fuel + 1, cs =>
    match cs with
    | [] => []
    | '$' :: '$' :: rest =>
      let cap := rest.takeWhile fun c => !(c == '$')
      let after := rest.drop cap.length
      match cap, after with
      | _ :: _, '$' :: '$' :: rest2 =>
        (blockReplacement ⟨cap⟩).data ++ replaceBlockAux fuel rest2
      | _, _ => '$' :: replaceBlockAux fuel ('$' :: rest)
    | c :: rest => c :: replaceBlockAux fuel rest

/-- Global replacement of `/\$([^$]+)\$/`. -/
def replaceInlineAux : Nat → List Char → List Char
  | 0, cs => cs
  | fuel + 1, cs =>
    match cs with
    | [] => []
    | '$' :: rest =>
      let cap := rest.takeWhile fun c => !(c == '$')
      let after := rest.drop cap.length
      match cap, after with
      | _ :: _, '$' :: rest2 =>
        (inlineReplacement ⟨cap⟩).data ++ replaceInlineAux fuel rest2
      | _, _ => '$' :: replaceInlineAux fuel rest
    | c :: rest => c :: replaceInlineAux fuel rest

/-- `WeixinAdapter.processLatex`: block pass first, then the inline pass
over its output. -/
def processLatex (content : String) : String :=
  let afterBlock : List Char := replaceBlockAux content.data.length content.data
  ⟨replaceInlineAux afterBlock.length afterBlock⟩

/-- Substring test (`url.includes(pattern)`). -/
def strContains (hay needle : String) : Bool :=
  hay.data.tails.any fun t => needle.data.isPrefixOf t

/-- Does the image URL match one of the adapter's skip patterns? -/
def matchesSkip (skip : List String) (url : String) : Bool :=
  skip.any fun p => strContains url p

/-- Modelled from the spec: the Content Transformer's image pipeline
(`processImages` of the core package, not under the verified sources) --
it "scans markup for image references", leaves entries "matching a
configurable skip-pattern list" untouched, and for the rest "the rewritten
markup substitutes the returned destination URL for the original source".
Modelled as a scan for `src="..."` attributes with per-URL substitution
through the caller-supplied upload function. -/
def processImagesAux (upload : String → String) (skip : List String) :
    Nat → List Char → List Char
  | 0, cs => cs
  | fuel + 1, cs =>
    match cs with
    | [] => []
    | 's' :: 'r' :: 'c' :: '=' :: '"' :: rest =>
      let url := rest.takeWhile fun c => !(c == '"')
      let after := rest.drop url.length
      let newUrl : String :=
        if matchesSkip skip ⟨url⟩ then ⟨url⟩ else upload ⟨url⟩
      's' :: 'r' :: 'c' :: '=' :: '"' :: newUrl.data ++
        processImagesAux upload skip fuel after
    | c :: rest => c :: processImagesAux upload skip fuel rest

/-- Modelled from the spec: the image pipeline over a markup string. -/
def processImagesModel (upload : String → String) (skip : List String)
    (content : String) : String :=
  ⟨processImagesAux upload skip content.data.length content.data⟩

/-- The Weixin skip patterns (`publish`, line 295): images already hosted
on the destination. -/
def weixinSkipPatterns : List String := ["mmbiz.qpic.cn", "mmbiz.qlogo.cn"]

/-- Steps 4-5 of `WeixinAdapter.publish`: the formula pass runs *before*
the image pipeline, so rendered formula images are re-hosted too. -/
def weixinLatexThenImages (upload : String → String) (content : String) :
    String :=
  processImagesModel upload weixinSkipPatterns (processLatex content)

/-- A concrete upload function that tags its input, making the
substitution visible in the output. -/
def uploadTag (src : String) : String := "uploaded://" ++ src

set_option maxRecDepth 8192 in
/-- **C8** -- Formula classifier and pipeline: a span is flagged as a true
formula exactly when it contains a LaTeX command character, a Greek
letter, or a mathematical operator glyph; `E=mc^2` is flagged (it contains
`^`) while a currency use of `$` is left untouched; the block span
`$$E=mc^2$$` is rewritten to a centered `<img>` referencing the external
renderer; and because the formula pass precedes the image pipeline, the
rendered formula image itself goes through the upload substitution (it is
re-hosted). -/
theorem weixin_formula_pipeline :
    (∀ s : String, isLatexFormula s = true ↔
      ∃ c ∈ s.data, (isLatexCommandChar c = true ∨ isGreekChar c = true ∨
        isMathOpChar c = true)) ∧
    isLatexFormula "E=mc^2" = true ∧
    processLatex "# H\n$$E=mc^2$$" =
      "# H\n<p style=\"text-align: center;\"><img src=\"https://latex.codecogs.com/png.latex?\\dpi{150}E%3Dmc%5E2\" alt=\"formula\" style=\"vertical-align: middle; max-width: 100%;\"></p>" ∧
    processLatex "Price: $100 or $200$" = "Price: $100 or $200$" ∧
    weixinLatexThenImages uploadTag "# H\n$$E=mc^2$$" =
      "# H\n<p style=\"text-align: center;\"><img src=\"uploaded://https://latex.codecogs.com/png.latex?\\dpi{150}E%3Dmc%5E2\" alt=\"formula\" style=\"vertical-align: middle; max-width: 100%;\"></p>" := by
  refine ⟨?_, by decide, by decide, by decide, by decide⟩
  intro s
  simp only [isLatexFormula, Bool.or_eq_true, List.any_eq_true]
  constructor
  · rintro ((⟨c, hc, h⟩ | ⟨c, hc, h⟩) | ⟨c, hc, h⟩)
    exacts [⟨c, hc, Or.inl h⟩, ⟨c, hc, Or.inr (Or.inl h)⟩,
      ⟨c, hc, Or.inr (Or.inr h)⟩]
  · rintro ⟨c, hc, (h | h | h)⟩
    exacts [Or.inl (Or.inl ⟨c, hc, h⟩), Or.inl (Or.inr ⟨c, hc, h⟩),
      Or.inr ⟨c, hc, h⟩]

end Wechatsync
